import Mathlib

/-!
Shallow embedding of
`vendor/github.com/ligato/vpp-agent/plugins/linux/ifplugin/linuxcalls/dump_link_linuxcalls.go`
(the interface dump orchestrator of the linux ifplugin).

Conventions of the embedding:
* Go pointers that may be `nil` become `Option`; a Go `nil` slice and an
  empty slice are both rendered as `[]` (they are observationally equal
  for everything this file states).
* Go errors become `Except String` results / `Option String` error slots;
  error message formatting (`errors.Errorf`) becomes string concatenation.
* The external collaborators that are not part of the source file
  (netlink syscall wrappers `GetLinkList` / `GetLinkByName` /
  `GetAddressList`, the nsplugin `SwitchNamespace`, and the interface
  Registry `ifIndexes`) are supplied as oracle fields of `Env`; where their
  behaviour matters it is modelled from the spec (see the individual
  doc comments).
* The OS thread's current namespace binding is explicit state of type
  `NsRef`, threaded through every probe; the netlink read oracles depend
  on it, which is what makes namespace switching and reverting
  observable.
* A Go `nil`-dereference panic is rendered as the `Option.none` result of
  the whole call (`transformAndStore` dereferences `link.Attrs()`
  unconditionally, and the Phase-1 caller does not guard it).
-/

namespace VppDumpLink

/-- Reference to a network namespace as seen by `SwitchNamespace`:
`none` is the default namespace (the zero-value `&nsplugin.Namespace{}`
descriptor), `some n` a named non-default namespace. -/
abbrev NsRef := Option String

/-- Name carried by a namespace reference (`ns.Name` in error messages);
the default namespace has the empty name. -/
def nsRefName : NsRef → String
  | none => ""
  | some n => n

/-- Embedding of the proto-modelled
`interfaces.LinuxInterfaces_Interface_Namespace` (only the part this file
consumes: a non-nil value singles out a non-default namespace identified
by name). -/
structure LinuxInterfaces_Interface_Namespace where
  Name : String
  deriving DecidableEq, Repr

/-- Embedding of the proto-modelled `interfaces.LinuxInterfaces_Interface`
(the northbound Configuration block).  The proto source is outside this
file; the field list is modelled from the spec ("namespace-qualified
interface config block") with zero values as Go defaults.  Only
`IpAddresses` and `Namespace` are consumed by the dump code; the other
fields exist so that frame properties ("every other field unchanged") are
statable. -/
structure LinuxInterfaces_Interface where
  Name : String := ""
  HostIfName : String := ""
  Enabled : Bool := false
  PhysAddress : String := ""
  Mtu : Int := 0
  Namespace : Option LinuxInterfaces_Interface_Namespace := none
  IpAddresses : List String := []
  deriving DecidableEq, Repr

/-- Embedding of `netlink.LinkStatistics` (an opaque counter snapshot;
the real struct has more counters, all handled uniformly as payload). -/
structure LinkStatistics where
  RxPackets : Nat := 0
  TxPackets : Nat := 0
  RxBytes : Nat := 0
  TxBytes : Nat := 0
  deriving DecidableEq, Repr

/-- Embedding of `netlink.LinkAttrs`, restricted to the fields the dump
code reads.  `OperState` and `Flags` hold the rendered strings (the
`.String()` calls on the netlink enum types happen outside this file and
are absorbed into the oracle-provided values).  `HardwareAddr` is the
possibly-nil `net.HardwareAddr`, modelled as an optional byte list. -/
structure LinkAttrs where
  Index : Int := 0
  Name : String := ""
  Alias : String := ""
  OperState : String := ""
  Flags : String := ""
  MTU : Int := 0
  EncapType : String := ""
  NetNsID : Int := 0
  NumTxQueues : Int := 0
  TxQLen : Int := 0
  NumRxQueues : Int := 0
  HardwareAddr : Option (List Nat) := none
  Statistics : Option LinkStatistics := none
  deriving DecidableEq, Repr

/-- Modelled from the spec: rendering of a non-nil hardware address
(`net.HardwareAddr.String()`, external to this file) into a MAC string;
the exact textual format is irrelevant to every claim, only that a
non-null value is rendered and a null one is not. -/
def hardwareAddrString (hw : List Nat) : String :=
  String.intercalate ":" (hw.map toString)

/-- Embedding of `netlink.Addr` restricted to what its rendering
consumes. -/
structure Addr where
  Address : String := ""
  PrefixLen : Nat := 0
  deriving DecidableEq, Repr

/-- Modelled from the spec: canonical string form of a kernel address,
CIDR-style "address/prefixlen" (`netlink.Addr.String()`, external to this
file). -/
def addrString (a : Addr) : String :=
  a.Address ++ "/" ++ toString a.PrefixLen

/-- Embedding of `LinuxInterfaceMeta` (kernel-observed metadata block);
`Typ` stands for the Go field `Type` (a reserved word here).  Zero values
are the Go zero values; in particular `MacAddr` defaults to the empty
string. -/
structure LinuxInterfaceMeta where
  Index : Int := 0
  Name : String := ""
  Alias : String := ""
  OperState : String := ""
  Flags : String := ""
  MacAddr : String := ""
  Mtu : Int := 0
  Typ : String := ""
  NetNsID : Int := 0
  NumTxQueues : Int := 0
  TxQueueLen : Int := 0
  NumRxQueues : Int := 0
  deriving DecidableEq, Repr

/-- Embedding of `LinuxInterfaceDetails`: the pair of an optional
Configuration (`Interface`) and optional Metadata (`Meta`), both starting
out nil. -/
structure LinuxInterfaceDetails where
  Interface : Option LinuxInterfaces_Interface := none
  Meta : Option LinuxInterfaceMeta := none
  deriving DecidableEq, Repr

/-- Embedding of `LinuxInterfaceStatistics`. -/
structure LinuxInterfaceStatistics where
  Name : String := ""
  Index : Int := 0
  Statistics : Option LinkStatistics := none
  deriving DecidableEq, Repr

/-- Registry (`ifIndexes`) metadata attached to a name: `Data` is the
possibly-nil stored Configuration (`meta.Data`).  A successful lookup
with a nil metadata pointer is folded into `Data = none`; the mapping
implementation stores metadata by value, and the two cases are guarded
identically wherever the source checks them. -/
structure IfMeta where
  Data : Option LinuxInterfaces_Interface
  deriving DecidableEq, Repr

/-- Environment of one dump call: the external collaborators as oracles.
`getLinkList` is the Phase-1 bulk listing in the default namespace
(elements may be nil links / links with nil attrs, collapsed into
`Option LinkAttrs`); `switchErr ns` is the error, if any, of switching
the thread into `ns`; `getLinkByName` and `getAddressList` are the
per-namespace netlink reads, taking the namespace the thread is currently
bound to as their first argument; `lookupIdx` is the Registry lookup
(`none` = not found) and `listNames` the Registry's advertised name
sequence. -/
structure Env where
  getLinkList : Except String (List (Option LinkAttrs))
  switchErr : NsRef → Option String
  getLinkByName : NsRef → String → Except String (Option LinkAttrs)
  getAddressList : NsRef → String → Except String (List Addr)
  lookupIdx : String → Option IfMeta
  listNames : List String

/-- Modelled from the spec: `nsplugin.SwitchNamespace(ns, ctx)` binds the
calling thread to the target namespace and returns a revert action that
restores the prior namespace; on failure the thread stays where it was
(and the returned revert action still restores that prior binding).
Result: (error, namespace the thread is now in, revert action). -/
def switchNamespace (env : Env) (ns : NsRef) (s : NsRef) :
    Option String × NsRef × (NsRef → NsRef) :=
  match env.switchErr ns with
  | none => (none, ns, fun _ => s)
  | some e => (some e, s, fun _ => s)

/-- Modelled from the spec: `nsplugin.IfNsToGeneric` turns a
Configuration namespace block into a generic namespace descriptor; a
nil/zero value denotes the default namespace. -/
def ifNsToGeneric : Option LinuxInterfaces_Interface_Namespace → NsRef
  | none => none
  | some nsCfg => some nsCfg.Name

/-- Embedding of `dumpInterfaceData`: switch into `ns` (deferring the
revert action so that it runs on every return path), then read the link
by name and its address list in the namespace the thread is now bound
to.  Returns the result of the probe together with the thread's
namespace binding after the deferred revert. -/
def dumpInterfaceData (env : Env) (ifName : String) (ns : NsRef) (s : NsRef) :
    Except String (Option LinkAttrs × List Addr) × NsRef :=
  match switchNamespace env ns s with
  | (some e, s1, revert) =>
    (Except.error ("failed to switch to namespace " ++ nsRefName ns ++ ": " ++ e), revert s1)
  | (none, s1, revert) =>
    match env.getLinkByName s1 ifName with
    | Except.error e =>
      (Except.error ("failed to get interface " ++ ifName ++ " from namespace "
        ++ nsRefName ns ++ ": " ++ e), revert s1)
    | Except.ok link =>
      match env.getAddressList s1 ifName with
      | Except.error e =>
        (Except.error ("failed to get interface " ++ ifName ++ " addresses: " ++ e), revert s1)
      | Except.ok linkAddrs => (Except.ok (link, linkAddrs), revert s1)

/-- Embedding of `transformAndStore`: render the kernel addresses and
store them into the (possibly freshly created) Configuration, then
rebuild the Metadata block from the link attributes.  `none` renders the
Go panic on the unguarded `link.Attrs()` dereference when the link is
nil / has nil attrs. -/
def transformAndStore (link : Option LinkAttrs) (addr : List Addr)
    (ifDetails : LinuxInterfaceDetails) : Option LinuxInterfaceDetails :=
  let ipAddrs := addr.map addrString
  let d1 : LinuxInterfaceDetails :=
    match ifDetails.Interface with
    | none => { ifDetails with Interface := some { IpAddresses := ipAddrs } }
    | some cfg => { ifDetails with Interface := some { cfg with IpAddresses := ipAddrs } }
  match link with
  | none => none
  | some linkAttrs =>
    some { d1 with
      Meta := some {
        Index := linkAttrs.Index
        Name := linkAttrs.Name
        Alias := linkAttrs.Alias
        OperState := linkAttrs.OperState
        Flags := linkAttrs.Flags
        MacAddr :=
          match linkAttrs.HardwareAddr with
          | none => ""
          | some hw => hardwareAddrString hw
        Mtu := linkAttrs.MTU
        Typ := linkAttrs.EncapType
        NetNsID := linkAttrs.NetNsID
        NumTxQueues := linkAttrs.NumTxQueues
        TxQueueLen := linkAttrs.TxQLen
        NumRxQueues := linkAttrs.NumRxQueues } }

/-- Phase 1 of `DumpInterfaces`: the loop over the default-namespace bulk
listing.  Nil links / nil attrs are logged and skipped; each surviving
name is re-probed through `dumpInterfaceData` in the default namespace;
probe errors are logged and skipped; a Registry hit adopts the stored
Configuration before the merge.  The accumulated details and the
namespace state are threaded; `none` propagates a panic. -/
def dumpDefaultNsLoop (env : Env) :
    List (Option LinkAttrs) → NsRef → List LinuxInterfaceDetails →
    Option (List LinuxInterfaceDetails × NsRef)
  | [], s, ifs => some (ifs, s)
  | dNsLink :: rest, s, ifs =>
    match dNsLink with
    | none => dumpDefaultNsLoop env rest s ifs
    | some attrs =>
      match dumpInterfaceData env attrs.Name none s with
      | (Except.error _, s2) => dumpDefaultNsLoop env rest s2 ifs
      | (Except.ok (link, linkAddresses), s2) =>
        let ifDetails : LinuxInterfaceDetails :=
          match env.lookupIdx attrs.Name with
          | some meta => { Interface := meta.Data, Meta := none }
          | none => {}
        match transformAndStore link linkAddresses ifDetails with
        | none => none
        | some d => dumpDefaultNsLoop env rest s2 (ifs ++ [d])

/-- Phase 2 of `DumpInterfaces`: the loop over the Registry's known
names.  Lookup misses and missing metadata are logged and skipped;
entries whose stored namespace is the default one (nil) are skipped as
already processed in Phase 1; otherwise the thread switches into the
recorded namespace and probes, skipping on probe error or unusable link
attributes, and merges onto the Registry's stored Configuration. -/
def dumpRegistryNsLoop (env : Env) :
    List String → NsRef → List LinuxInterfaceDetails →
    Option (List LinuxInterfaceDetails × NsRef)
  | [], s, ifs => some (ifs, s)
  | ifName :: rest, s, ifs =>
    match env.lookupIdx ifName with
    | none => dumpRegistryNsLoop env rest s ifs
    | some meta =>
      match meta.Data with
      | none => dumpRegistryNsLoop env rest s ifs
      | some data =>
        match data.Namespace with
        | none => dumpRegistryNsLoop env rest s ifs
        | some nsCfg =>
          match dumpInterfaceData env ifName (ifNsToGeneric (some nsCfg)) s with
          | (Except.error _, s2) => dumpRegistryNsLoop env rest s2 ifs
          | (Except.ok (link, linkAddresses), s2) =>
            match link with
            | none => dumpRegistryNsLoop env rest s2 ifs
            | some _ =>
              match transformAndStore link linkAddresses
                  { Interface := some data, Meta := none } with
              | none => none
              | some d => dumpRegistryNsLoop env rest s2 (ifs ++ [d])

/-- Embedding of `DumpInterfaces`: Phase-1 bulk listing (its failure is
the single fatal path, returning the nil slice `[]` and a non-nil
error), then the two loops.  The outer `Option` renders a panic; a
normal return carries the inventory and the error slot. -/
def DumpInterfaces (env : Env) (s0 : NsRef) :
    Option (List LinuxInterfaceDetails × Option String) :=
  match env.getLinkList with
  | Except.error e =>
    some ([], some ("failed to dump linux interfaces from default namespace: " ++ e))
  | Except.ok dNsLinks =>
    match dumpDefaultNsLoop env dNsLinks s0 [] with
    | none => none
    | some (ifs1, s1) =>
      match dumpRegistryNsLoop env env.listNames s1 ifs1 with
      | none => none
      | some (ifs2, _) => some (ifs2, none)

/-- Loop of `DumpInterfaceStatistics` over the Registry's known names:
same per-interface skip-on-error policy as Phase 2, but the usable-link
guard precedes every attribute dereference, so no panic is possible and
only the name/index/statistics triple is extracted. -/
def dumpStatisticsLoop (env : Env) :
    List String → NsRef → List LinuxInterfaceStatistics →
    List LinuxInterfaceStatistics × NsRef
  | [], s, ifs => (ifs, s)
  | ifName :: rest, s, ifs =>
    match env.lookupIdx ifName with
    | none => dumpStatisticsLoop env rest s ifs
    | some meta =>
      match meta.Data with
      | none => dumpStatisticsLoop env rest s ifs
      | some data =>
        match dumpInterfaceData env ifName (ifNsToGeneric data.Namespace) s with
        | (Except.error _, s2) => dumpStatisticsLoop env rest s2 ifs
        | (Except.ok (link, _), s2) =>
          match link with
          | none => dumpStatisticsLoop env rest s2 ifs
          | some linkAttrs =>
            dumpStatisticsLoop env rest s2 (ifs ++
              [{ Name := linkAttrs.Name, Index := linkAttrs.Index,
                 Statistics := linkAttrs.Statistics }])

/-- Embedding of `DumpInterfaceStatistics`: iterate the Registry names
and return the collected statistics with a nil error slot. -/
def DumpInterfaceStatistics (env : Env) (s0 : NsRef) :
    List LinuxInterfaceStatistics × Option String :=
  ((dumpStatisticsLoop env env.listNames s0 []).1, none)

/-- Interface names carried by an inventory (the Metadata name of each
element that has one). -/
def detailsNames (l : List LinuxInterfaceDetails) : List String :=
  l.filterMap (fun d => d.Meta.map LinuxInterfaceMeta.Name)

/-- Interface names carried by a bulk link listing (nil links skipped). -/
def namesOfLinks (links : List (Option LinkAttrs)) : List String :=
  links.filterMap (Option.map LinkAttrs.Name)

/-- Whether the Registry records `n` under a non-default namespace (the
entries Phase 2 actually probes). -/
def regNonDefault (env : Env) (n : String) : Bool :=
  match env.lookupIdx n with
  | some meta =>
    match meta.Data with
    | some data => data.Namespace.isSome
    | none => false
  | none => false

/-- Name coherence of the link-by-name oracle: a successful
`GetLinkByName(name)` yields a link whose attributes carry that name
(true of the real netlink resolver in every namespace). -/
def cohGetLinkByName (env : Env) : Prop :=
  ∀ s n l, env.getLinkByName s n = Except.ok (some l) → l.Name = n

/-- State-free view of one probe (`dumpInterfaceData` with the threaded
namespace state projected away); used by the proofs, equal to the real
probe by `dumpInterfaceData_eq_probe`. -/
def probeResult (env : Env) (ifName : String) (ns : NsRef) :
    Except String (Option LinkAttrs × List Addr) :=
  match env.switchErr ns with
  | some e => Except.error ("failed to switch to namespace " ++ nsRefName ns ++ ": " ++ e)
  | none =>
    match env.getLinkByName ns ifName with
    | Except.error e =>
      Except.error ("failed to get interface " ++ ifName ++ " from namespace "
        ++ nsRefName ns ++ ": " ++ e)
    | Except.ok link =>
      match env.getAddressList ns ifName with
      | Except.error e =>
        Except.error ("failed to get interface " ++ ifName ++ " addresses: " ++ e)
      | Except.ok linkAddrs => Except.ok (link, linkAddrs)

/-- Metadata block that `transformAndStore` rebuilds from link
attributes (proof-side restatement of its straight-line construction). -/
def metaOfAttrs (la : LinkAttrs) : LinuxInterfaceMeta :=
  { Index := la.Index
    Name := la.Name
    Alias := la.Alias
    OperState := la.OperState
    Flags := la.Flags
    MacAddr :=
      match la.HardwareAddr with
      | none => ""
      | some hw => hardwareAddrString hw
    Mtu := la.MTU
    Typ := la.EncapType
    NetNsID := la.NetNsID
    NumTxQueues := la.NumTxQueues
    TxQueueLen := la.TxQLen
    NumRxQueues := la.NumRxQueues }

/-- Configuration block after the address merge: fresh when none existed,
otherwise the existing one with only the address list replaced. -/
def mergedConfig (addr : List Addr) :
    Option LinuxInterfaces_Interface → LinuxInterfaces_Interface
  | none => { IpAddresses := addr.map addrString }
  | some cfg => { cfg with IpAddresses := addr.map addrString }

/-- Concrete link attributes for the evaluation theorems. -/
def loAttrs : LinkAttrs := { Index := 1, Name := "lo" }

/-- Concrete kernel address used in the evaluation theorems. -/
def addr1 : Addr := { Address := "10.0.0.1", PrefixLen := 24 }

/-- Concrete non-default namespace block. -/
def nsACfg : LinuxInterfaces_Interface_Namespace := { Name := "ns-a" }

/-- Concrete Registry Configuration recorded under namespace "ns-a". -/
def vethCfg : LinuxInterfaces_Interface :=
  { Name := "veth1", Namespace := some nsACfg, IpAddresses := ["192.168.0.9/30"] }

/-- Concrete scan environment: one default-namespace link "lo"; the
Registry knows "veth1" under non-default namespace "ns-a"; every oracle
succeeds and resolves names coherently. -/
def envScan : Env :=
  { getLinkList := Except.ok [some loAttrs]
    switchErr := fun _ => none
    getLinkByName := fun _ n => Except.ok (some { loAttrs with Name := n })
    getAddressList := fun _ _ => Except.ok [addr1]
    lookupIdx := fun n => if n = "veth1" then some ⟨some vethCfg⟩ else none
    listNames := ["veth1"] }

/-- Inventory produced by `envScan` (forced by evaluation). -/
def resScan : List LinuxInterfaceDetails :=
  ((DumpInterfaces envScan none).map Prod.fst).getD []

/-- Concrete environment where the name "eth0" is both visible in the
default namespace and recorded in the Registry under the non-default
namespace "ns-a" (with a link of that name reachable there). -/
def envDup : Env :=
  { getLinkList := Except.ok [some { loAttrs with Name := "eth0", Index := 2 }]
    switchErr := fun _ => none
    getLinkByName := fun _ n => Except.ok (some { loAttrs with Name := n, Index := 2 })
    getAddressList := fun _ _ => Except.ok [addr1]
    lookupIdx := fun n =>
      if n = "eth0" then some ⟨some { Name := "eth0", Namespace := some nsACfg }⟩ else none
    listNames := ["eth0"] }

/-- Concrete environment whose default-namespace bulk listing fails. -/
def envFatal : Env :=
  { getLinkList := Except.error "netlink socket closed"
    switchErr := fun _ => none
    getLinkByName := fun _ _ => Except.error "unreachable"
    getAddressList := fun _ _ => Except.error "unreachable"
    lookupIdx := fun _ => none
    listNames := [] }

/-- Concrete environment where entering namespace "ns-a" fails while the
Registry records "veth1" there. -/
def envSwitchFail : Env :=
  { getLinkList := Except.ok []
    switchErr := fun ns => if ns = some "ns-a" then some "no such namespace" else none
    getLinkByName := fun _ n => Except.ok (some { loAttrs with Name := n })
    getAddressList := fun _ _ => Except.ok []
    lookupIdx := fun n => if n = "veth1" then some ⟨some vethCfg⟩ else none
    listNames := ["veth1"] }

/-- Concrete environment with an empty Registry. -/
def envEmptyReg : Env :=
  { getLinkList := Except.ok []
    switchErr := fun _ => none
    getLinkByName := fun _ _ => Except.error "no such link"
    getAddressList := fun _ _ => Except.error "no such link"
    lookupIdx := fun _ => none
    listNames := [] }

/-- Concrete details record holding a pre-existing Configuration (as
Phase 2 builds before merging). -/
def dWithCfg : LinuxInterfaceDetails := { Interface := some vethCfg, Meta := none }

/-- Details record Phase 1 builds for a discovered name before the
merge: the zero record, with the Registry's stored Configuration adopted
when the lookup hits (`ifDetails.Interface = meta.Data`). -/
def phase1Details (env : Env) (ifName : String) : LinuxInterfaceDetails :=
  match env.lookupIdx ifName with
  | some meta => { Interface := meta.Data, Meta := none }
  | none => {}

/-- Concrete link attributes of a second default-namespace link whose
probe is made to fail. -/
def eth1Attrs : LinkAttrs := { Index := 7, Name := "eth1" }

/-- Concrete environment where the bulk listing holds "eth1" and "lo"
but resolving "eth1" fails: the scan must skip "eth1" and still deliver
"lo". -/
def envPartial : Env :=
  { getLinkList := Except.ok [some eth1Attrs, some loAttrs]
    switchErr := fun _ => none
    getLinkByName := fun _ n =>
      if n = "eth1" then Except.error "device gone"
      else Except.ok (some { loAttrs with Name := n })
    getAddressList := fun _ _ => Except.ok [addr1]
    lookupIdx := fun _ => none
    listNames := [] }

/-- The probe equals its state-free view paired with the restored
pre-probe namespace state. -/
theorem dumpInterfaceData_eq_probe (env : Env) (ifName : String) (ns s : NsRef) :
    dumpInterfaceData env ifName ns s = (probeResult env ifName ns, s) := by
  unfold dumpInterfaceData switchNamespace probeResult
  cases env.switchErr ns
  · dsimp only
    cases env.getLinkByName ns ifName
    · rfl
    · dsimp only
      cases env.getAddressList ns ifName <;> rfl
  · rfl

/-- The merge on a usable link, in closed form. -/
theorem transformAndStore_eq (la : LinkAttrs) (addr : List Addr)
    (d : LinuxInterfaceDetails) :
    transformAndStore (some la) addr d =
      some { Interface := some (mergedConfig addr d.Interface),
             Meta := some (metaOfAttrs la) } := by
  unfold transformAndStore mergedConfig metaOfAttrs
  cases d.Interface <;> rfl

/-- The merge on a nil link (nil attrs) is the Go panic. -/
theorem transformAndStore_none (addr : List Addr) (d : LinuxInterfaceDetails) :
    transformAndStore none addr d = none := by
  unfold transformAndStore
  cases d.Interface <;> rfl

/-- C3: after every per-interface probe performed via
`dumpInterfaceData`, whether the probe succeeds or fails, the namespace
state is restored to its pre-probe value (the deferred revert action runs
on every return path), so the next interface starts from the original
binding. -/
theorem dumpInterfaceData_restores_namespace (env : Env) (ifName : String) (ns s : NsRef) :
    (dumpInterfaceData env ifName ns s).2 = s := by
  rw [dumpInterfaceData_eq_probe]

/-- C5: every merged interface's Configuration carries exactly the
kernel-read address sequence rendered in canonical form; whatever address
list a pre-existing Configuration held is replaced. -/
theorem transformAndStore_kernel_addresses (link : Option LinkAttrs) (addr : List Addr)
    (ifDetails out : LinuxInterfaceDetails)
    (h : transformAndStore link addr ifDetails = some out) :
    ∃ cfg, out.Interface = some cfg ∧ cfg.IpAddresses = addr.map addrString := by
  cases link with
  | none => rw [transformAndStore_none] at h; cases h
  | some la =>
    rw [transformAndStore_eq] at h
    injection h with h
    subst h
    refine ⟨mergedConfig addr ifDetails.Interface, rfl, ?_⟩
    cases ifDetails.Interface <;> rfl

/-- Witness for C5: merging the concrete address `10.0.0.1/24` over a
Configuration that held a stale list yields exactly `["10.0.0.1/24"]`. -/
theorem transformAndStore_kernel_addresses_witness :
    ∃ cfg, ((transformAndStore (some loAttrs) [addr1] dWithCfg).getD {}).Interface = some cfg
      ∧ cfg.IpAddresses = [addr1].map addrString :=
  transformAndStore_kernel_addresses (some loAttrs) [addr1] dWithCfg
    ((transformAndStore (some loAttrs) [addr1] dWithCfg).getD {}) rfl

/-- C7: a link whose attributes report no hardware address yields
metadata with an empty MAC string, while a present hardware address is
rendered into the MAC field. -/
theorem transformAndStore_mac_optional (la : LinkAttrs) (addr : List Addr)
    (d out : LinuxInterfaceDetails)
    (h : transformAndStore (some la) addr d = some out) :
    ∃ m, out.Meta = some m ∧
      (la.HardwareAddr = none → m.MacAddr = "") ∧
      (∀ hw, la.HardwareAddr = some hw → m.MacAddr = hardwareAddrString hw) := by
  rw [transformAndStore_eq] at h
  injection h with h
  subst h
  refine ⟨metaOfAttrs la, rfl, ?_, ?_⟩
  · intro hn
    unfold metaOfAttrs
    rw [hn]
  · intro hw hs
    unfold metaOfAttrs
    rw [hs]

/-- Witness for C7: at a concrete link with no hardware address the MAC
field is the empty string. -/
theorem transformAndStore_mac_optional_witness :
    ∃ m, ((transformAndStore (some loAttrs) [] dWithCfg).getD {}).Meta = some m ∧
      m.MacAddr = "" := by
  obtain ⟨m, hm, hnone, _⟩ :=
    transformAndStore_mac_optional loAttrs [] dWithCfg
      ((transformAndStore (some loAttrs) [] dWithCfg).getD {}) rfl
  exact ⟨m, hm, hnone rfl⟩

/-- C9: when the details already carry a Configuration, the merge
replaces only its IP-address list; every other Configuration field is
left unchanged. -/
theorem transformAndStore_config_frame (cfg : LinuxInterfaces_Interface)
    (link : Option LinkAttrs) (addr : List Addr) (d out : LinuxInterfaceDetails)
    (hI : d.Interface = some cfg)
    (h : transformAndStore link addr d = some out) :
    ∃ cfg2, out.Interface = some cfg2 ∧
      cfg2.Name = cfg.Name ∧ cfg2.HostIfName = cfg.HostIfName ∧
      cfg2.Enabled = cfg.Enabled ∧ cfg2.PhysAddress = cfg.PhysAddress ∧
      cfg2.Mtu = cfg.Mtu ∧ cfg2.Namespace = cfg.Namespace ∧
      cfg2.IpAddresses = addr.map addrString := by
  cases link with
  | none => rw [transformAndStore_none] at h; cases h
  | some la =>
    rw [transformAndStore_eq] at h
    injection h with h
    subst h
    rw [hI]
    exact ⟨{ cfg with IpAddresses := addr.map addrString },
      rfl, rfl, rfl, rfl, rfl, rfl, rfl, rfl⟩

/-- Witness for C9: merging over the concrete Registry Configuration
keeps its name and namespace and replaces only the address list. -/
theorem transformAndStore_config_frame_witness :
    ∃ cfg2, ((transformAndStore (some loAttrs) [addr1] dWithCfg).getD {}).Interface = some cfg2 ∧
      cfg2.Name = vethCfg.Name ∧ cfg2.Namespace = vethCfg.Namespace ∧
      cfg2.IpAddresses = ["10.0.0.1/24"] := by
  obtain ⟨cfg2, hc, hn, _, _, _, _, hns, ha⟩ :=
    transformAndStore_config_frame vethCfg (some loAttrs) [addr1] dWithCfg
      ((transformAndStore (some loAttrs) [addr1] dWithCfg).getD {}) rfl rfl
  exact ⟨cfg2, hc, hn, hns, ha⟩

/-- C6 (amended): every successful merge populates both blocks —
Metadata always, and Configuration either as the Registry-provided one or
(when the details carried none, i.e. the name missed the Registry) as a
freshly synthesized Configuration holding only the kernel-read address
list. -/
theorem transformAndStore_populates (link : Option LinkAttrs) (addr : List Addr)
    (d out : LinuxInterfaceDetails)
    (h : transformAndStore link addr d = some out) :
    out.Meta.isSome ∧ out.Interface.isSome ∧
      (d.Interface = none →
        out.Interface = some { IpAddresses := addr.map addrString }) := by
  cases link with
  | none => rw [transformAndStore_none] at h; cases h
  | some la =>
    rw [transformAndStore_eq] at h
    injection h with h
    subst h
    refine ⟨rfl, rfl, ?_⟩
    intro hn
    rw [hn]
    rfl

/-- Witness for C6 (amended): a concrete merge with no pre-existing
Configuration synthesizes one holding exactly the kernel addresses. -/
theorem transformAndStore_populates_witness :
    ((transformAndStore (some loAttrs) [addr1] {}).getD {}).Meta.isSome ∧
      ((transformAndStore (some loAttrs) [addr1] {}).getD {}).Interface
        = some { IpAddresses := ["10.0.0.1/24"] } := by
  obtain ⟨hm, _, hi⟩ :=
    transformAndStore_populates (some loAttrs) [addr1] {}
      ((transformAndStore (some loAttrs) [addr1] {}).getD {}) rfl
  exact ⟨hm, hi rfl⟩

/-- The Phase-1 loop keeps everything already accumulated and delivers
an element for every link in its listing whose probe and merge succeed,
whatever happened to the other links. -/
theorem dumpDefaultNsLoop_complete (env : Env) :
    ∀ links s ifs res sf,
      dumpDefaultNsLoop env links s ifs = some (res, sf) →
      (∀ d ∈ ifs, d ∈ res) ∧
      (∀ attrs, some attrs ∈ links → ∀ link addrs d,
        probeResult env attrs.Name none = Except.ok (link, addrs) →
        transformAndStore link addrs (phase1Details env attrs.Name) = some d →
        d ∈ res) := by
  intro links
  induction links with
  | nil =>
    intro s ifs res sf h
    simp only [dumpDefaultNsLoop, Option.some.injEq, Prod.mk.injEq] at h
    obtain ⟨h1, _⟩ := h
    subst h1
    refine ⟨fun d hd => hd, ?_⟩
    intro attrs hmem
    exact absurd hmem (List.not_mem_nil _)
  | cons dNsLink rest ih =>
    intro s ifs res sf h
    cases dNsLink with
    | none =>
      simp only [dumpDefaultNsLoop] at h
      obtain ⟨hacc, hrest⟩ := ih _ _ _ _ h
      refine ⟨hacc, ?_⟩
      intro attrs hmem link addrs d hp htr
      rcases List.mem_cons.mp hmem with heq | hmem2
      · exact Option.noConfusion heq
      · exact hrest attrs hmem2 link addrs d hp htr
    | some attrs0 =>
      simp only [dumpDefaultNsLoop] at h
      rw [dumpInterfaceData_eq_probe] at h
      cases hp0 : probeResult env attrs0.Name none with
      | error e =>
        simp only [hp0] at h
        obtain ⟨hacc, hrest⟩ := ih _ _ _ _ h
        refine ⟨hacc, ?_⟩
        intro attrs hmem link addrs d hp htr
        rcases List.mem_cons.mp hmem with heq | hmem2
        · injection heq with heq
          subst heq
          rw [hp0] at hp
          exact Except.noConfusion hp
        · exact hrest attrs hmem2 link addrs d hp htr
      | ok pr =>
        obtain ⟨link0, addrs0⟩ := pr
        simp only [hp0] at h
        cases hl : env.lookupIdx attrs0.Name with
        | some meta =>
          simp only [hl] at h
          cases ht : transformAndStore link0 addrs0 { Interface := meta.Data, Meta := none } with
          | none => rw [ht] at h; exact Option.noConfusion h
          | some d0 =>
            rw [ht] at h
            obtain ⟨hacc, hrest⟩ := ih _ _ _ _ h
            refine ⟨fun d hd => hacc d (List.mem_append_left _ hd), ?_⟩
            intro attrs hmem link addrs d hp htr
            rcases List.mem_cons.mp hmem with heq | hmem2
            · injection heq with heq
              subst heq
              rw [hp0] at hp
              injection hp with hp
              injection hp with hpl hpa
              subst hpl
              subst hpa
              simp only [phase1Details, hl] at htr
              rw [ht] at htr
              injection htr with htr
              subst htr
              exact hacc d0 (List.mem_append_right _ (List.mem_singleton_self _))
            · exact hrest attrs hmem2 link addrs d hp htr
        | none =>
          simp only [hl] at h
          cases ht : transformAndStore link0 addrs0 ({} : LinuxInterfaceDetails) with
          | none => rw [ht] at h; exact Option.noConfusion h
          | some d0 =>
            rw [ht] at h
            obtain ⟨hacc, hrest⟩ := ih _ _ _ _ h
            refine ⟨fun d hd => hacc d (List.mem_append_left _ hd), ?_⟩
            intro attrs hmem link addrs d hp htr
            rcases List.mem_cons.mp hmem with heq | hmem2
            · injection heq with heq
              subst heq
              rw [hp0] at hp
              injection hp with hp
              injection hp with hpl hpa
              subst hpl
              subst hpa
              simp only [phase1Details, hl] at htr
              rw [ht] at htr
              injection htr with htr
              subst htr
              exact hacc d0 (List.mem_append_right _ (List.mem_singleton_self _))
            · exact hrest attrs hmem2 link addrs d hp htr

/-- The Phase-2 loop keeps everything already accumulated and delivers
an element for every Registry name it visits whose entry routes to a
probe that succeeds with a usable link and a successful merge. -/
theorem dumpRegistryNsLoop_complete (env : Env) :
    ∀ names s ifs res sf,
      dumpRegistryNsLoop env names s ifs = some (res, sf) →
      (∀ d ∈ ifs, d ∈ res) ∧
      (∀ n, n ∈ names → ∀ data nsCfg la addrs d,
        env.lookupIdx n = some ⟨some data⟩ →
        data.Namespace = some nsCfg →
        probeResult env n (ifNsToGeneric (some nsCfg)) = Except.ok (some la, addrs) →
        transformAndStore (some la) addrs { Interface := some data, Meta := none } = some d →
        d ∈ res) := by
  intro names
  induction names with
  | nil =>
    intro s ifs res sf h
    simp only [dumpRegistryNsLoop, Option.some.injEq, Prod.mk.injEq] at h
    obtain ⟨h1, _⟩ := h
    subst h1
    refine ⟨fun d hd => hd, ?_⟩
    intro n hmem
    exact absurd hmem (List.not_mem_nil _)
  | cons n0 rest ih =>
    intro s ifs res sf h
    simp only [dumpRegistryNsLoop] at h
    cases hl : env.lookupIdx n0 with
    | none =>
      simp only [hl] at h
      obtain ⟨hacc, hrest⟩ := ih _ _ _ _ h
      refine ⟨hacc, ?_⟩
      intro n hmem data nsCfg la addrs d hlk hnc hp htr
      rcases List.mem_cons.mp hmem with heq | hmem2
      · subst heq
        rw [hl] at hlk
        exact Option.noConfusion hlk
      · exact hrest n hmem2 data nsCfg la addrs d hlk hnc hp htr
    | some meta =>
      simp only [hl] at h
      cases hd : meta.Data with
      | none =>
        simp only [hd] at h
        obtain ⟨hacc, hrest⟩ := ih _ _ _ _ h
        refine ⟨hacc, ?_⟩
        intro n hmem data nsCfg la addrs d hlk hnc hp htr
        rcases List.mem_cons.mp hmem with heq | hmem2
        · subst heq
          rw [hl] at hlk
          injection hlk with hlk
          rw [hlk] at hd
          exact Option.noConfusion hd
        · exact hrest n hmem2 data nsCfg la addrs d hlk hnc hp htr
      | some data0 =>
        simp only [hd] at h
        cases hn : data0.Namespace with
        | none =>
          simp only [hn] at h
          obtain ⟨hacc, hrest⟩ := ih _ _ _ _ h
          refine ⟨hacc, ?_⟩
          intro n hmem data nsCfg la addrs d hlk hnc hp htr
          rcases List.mem_cons.mp hmem with heq | hmem2
          · subst heq
            rw [hl] at hlk
            injection hlk with hlk
            rw [hlk] at hd
            injection hd with hd
            rw [hd] at hnc
            rw [hn] at hnc
            exact Option.noConfusion hnc
          · exact hrest n hmem2 data nsCfg la addrs d hlk hnc hp htr
        | some nsCfg0 =>
          simp only [hn] at h
          rw [dumpInterfaceData_eq_probe] at h
          cases hp0 : probeResult env n0 (ifNsToGeneric (some nsCfg0)) with
          | error e =>
            simp only [hp0] at h
            obtain ⟨hacc, hrest⟩ := ih _ _ _ _ h
            refine ⟨hacc, ?_⟩
            intro n hmem data nsCfg la addrs d hlk hnc hp htr
            rcases List.mem_cons.mp hmem with heq | hmem2
            · subst heq
              rw [hl] at hlk
              injection hlk with hlk
              rw [hlk] at hd
              injection hd with hd
              rw [hd] at hnc
              rw [hn] at hnc
              injection hnc with hnc
              rw [← hnc] at hp
              rw [hp0] at hp
              exact Except.noConfusion hp
            · exact hrest n hmem2 data nsCfg la addrs d hlk hnc hp htr
          | ok pr =>
            obtain ⟨link0, addrs0⟩ := pr
            simp only [hp0] at h
            cases link0 with
            | none =>
              dsimp only at h
              obtain ⟨hacc, hrest⟩ := ih _ _ _ _ h
              refine ⟨hacc, ?_⟩
              intro n hmem data nsCfg la addrs d hlk hnc hp htr
              rcases List.mem_cons.mp hmem with heq | hmem2
              · subst heq
                rw [hl] at hlk
                injection hlk with hlk
                rw [hlk] at hd
                injection hd with hd
                rw [hd] at hnc
                rw [hn] at hnc
                injection hnc with hnc
                rw [← hnc] at hp
                rw [hp0] at hp
                injection hp with hp
                injection hp with hpl hpa
                exact Option.noConfusion hpl
              · exact hrest n hmem2 data nsCfg la addrs d hlk hnc hp htr
            | some la0 =>
              dsimp only at h
              cases ht : transformAndStore (some la0) addrs0
                  { Interface := some data0, Meta := none } with
              | none => rw [ht] at h; exact Option.noConfusion h
              | some d0 =>
                rw [ht] at h
                obtain ⟨hacc, hrest⟩ := ih _ _ _ _ h
                refine ⟨fun d hd2 => hacc d (List.mem_append_left _ hd2), ?_⟩
                intro n hmem data nsCfg la addrs d hlk hnc hp htr
                rcases List.mem_cons.mp hmem with heq | hmem2
                · subst heq
                  rw [hl] at hlk
                  injection hlk with hlk
                  rw [hlk] at hd
                  injection hd with hd
                  subst hd
                  rw [hn] at hnc
                  injection hnc with hnc
                  subst hnc
                  rw [hp0] at hp
                  injection hp with hp
                  injection hp with hpl hpa
                  injection hpl with hpl
                  subst hpl
                  subst hpa
                  rw [ht] at htr
                  injection htr with htr
                  subst htr
                  exact hacc d0 (List.mem_append_right _ (List.mem_singleton_self _))
                · exact hrest n hmem2 data nsCfg la addrs d hlk hnc hp htr

/-- C2: a dump that returns fails as a whole exactly when the initial
default-namespace bulk listing failed, and in that case the result is the
nil inventory together with the wrapped listing error (no partial
results); when the listing succeeded, the returned error is nil whatever
the per-interface probes did, and the inventory contains an element for
every successfully probed interface of both phases — a per-interface
failure costs only that interface. -/
theorem dumpInterfaces_fatal_only_phase1 (env : Env) (s0 : NsRef)
    (res : List LinuxInterfaceDetails × Option String)
    (h : DumpInterfaces env s0 = some res) :
    (res.2.isSome = true ↔ ∃ e, env.getLinkList = Except.error e) ∧
      (∀ e, env.getLinkList = Except.error e →
        res = ([], some ("failed to dump linux interfaces from default namespace: "
          ++ e))) ∧
      (∀ links, env.getLinkList = Except.ok links →
        (∀ attrs, some attrs ∈ links → ∀ link addrs d,
          probeResult env attrs.Name none = Except.ok (link, addrs) →
          transformAndStore link addrs (phase1Details env attrs.Name) = some d →
          d ∈ res.1) ∧
        (∀ n, n ∈ env.listNames → ∀ data nsCfg la addrs d,
          env.lookupIdx n = some ⟨some data⟩ →
          data.Namespace = some nsCfg →
          probeResult env n (ifNsToGeneric (some nsCfg)) = Except.ok (some la, addrs) →
          transformAndStore (some la) addrs { Interface := some data, Meta := none }
            = some d →
          d ∈ res.1)) := by
  unfold DumpInterfaces at h
  cases hg : env.getLinkList with
  | error e =>
    simp only [hg, Option.some.injEq] at h
    subst h
    refine ⟨⟨fun _ => ⟨e, rfl⟩, fun _ => rfl⟩, ?_, ?_⟩
    · intro e2 he2
      injection he2 with he2
      subst he2
      rfl
    · intro links hlk
      exact Except.noConfusion hlk
  | ok dNsLinks =>
    simp only [hg] at h
    cases h1 : dumpDefaultNsLoop env dNsLinks s0 [] with
    | none => rw [h1] at h; cases h
    | some p1 =>
      obtain ⟨ifs1, s1⟩ := p1
      simp only [h1] at h
      cases h2 : dumpRegistryNsLoop env env.listNames s1 ifs1 with
      | none => rw [h2] at h; cases h
      | some p2 =>
        obtain ⟨ifs2, s2⟩ := p2
        simp only [h2, Option.some.injEq] at h
        subst h
        refine ⟨⟨fun hs => ?_, fun hex => ?_⟩, fun e he => ?_, fun links hlk => ?_⟩
        · simp at hs
        · obtain ⟨e, he⟩ := hex
          exact Except.noConfusion he
        · exact Except.noConfusion he
        · injection hlk with hlk
          subst hlk
          obtain ⟨hacc1, hcomp1⟩ := dumpDefaultNsLoop_complete env dNsLinks s0 [] ifs1 s1 h1
          obtain ⟨hacc2, hcomp2⟩ := dumpRegistryNsLoop_complete env env.listNames s1 ifs1 ifs2 s2 h2
          constructor
          · intro attrs hmem link addrs d hp htr
            exact hacc2 d (hcomp1 attrs hmem link addrs d hp htr)
          · intro n hmem data nsCfg la addrs d hlk2 hnc hp htr
            exact hcomp2 n hmem data nsCfg la addrs d hlk2 hnc hp htr

/-- Witness for C2: in the concrete environment where probing "eth1"
fails, the dump still returns a nil error and the merged element for the
still-probable "lo" is a member of the returned inventory. -/
theorem dumpInterfaces_fatal_only_phase1_witness :
    ((DumpInterfaces envPartial none).getD ([], none)).2 = none ∧
      ((transformAndStore (some loAttrs) [addr1] (phase1Details envPartial "lo")).getD {})
        ∈ ((DumpInterfaces envPartial none).getD ([], none)).1 := by
  have h := dumpInterfaces_fatal_only_phase1 envPartial none
    ((DumpInterfaces envPartial none).getD ([], none)) rfl
  refine ⟨?_, ?_⟩
  · have hnone : ¬ (((DumpInterfaces envPartial none).getD ([], none)).2.isSome = true) := by
      intro hs
      obtain ⟨e, he⟩ := h.1.mp hs
      exact Except.noConfusion he
    cases hval : ((DumpInterfaces envPartial none).getD ([], none)).2 with
    | none => rfl
    | some e => rw [hval] at hnone; exact absurd rfl hnone
  · exact (h.2.2 [some eth1Attrs, some loAttrs] rfl).1 loAttrs (by decide)
      (some loAttrs) [addr1]
      ((transformAndStore (some loAttrs) [addr1] (phase1Details envPartial "lo")).getD {})
      rfl rfl

/-- C4: when the namespace switch for a probe fails, the probe returns
the switch error whatever the link and address readers would have
answered (they are never consulted), and the Phase-2 loop skips exactly
that interface and carries on with the rest of the scan. -/
theorem switch_failure_skips_interface (env : Env) (ifName : String)
    (rest : List String) (s : NsRef) (ifs : List LinuxInterfaceDetails)
    (data : LinuxInterfaces_Interface) (nsCfg : LinuxInterfaces_Interface_Namespace)
    (e : String)
    (h1 : env.lookupIdx ifName = some ⟨some data⟩)
    (h2 : data.Namespace = some nsCfg)
    (h3 : env.switchErr (some nsCfg.Name) = some e) :
    (∀ glbn gal,
      (dumpInterfaceData { env with getLinkByName := glbn, getAddressList := gal }
          ifName (some nsCfg.Name) s).1
        = Except.error ("failed to switch to namespace " ++ nsCfg.Name ++ ": " ++ e)) ∧
      dumpRegistryNsLoop env (ifName :: rest) s ifs = dumpRegistryNsLoop env rest s ifs := by
  constructor
  · intro glbn gal
    rw [dumpInterfaceData_eq_probe]
    unfold probeResult
    dsimp only
    rw [h3]
    rfl
  · have hp : dumpInterfaceData env ifName (ifNsToGeneric (some nsCfg)) s
        = (Except.error ("failed to switch to namespace " ++ nsCfg.Name ++ ": " ++ e), s) := by
      rw [dumpInterfaceData_eq_probe]
      unfold probeResult ifNsToGeneric
      dsimp only
      rw [h3]
      rfl
    simp only [dumpRegistryNsLoop, h1, h2, hp]

/-- Witness for C4: with the concrete environment refusing to enter
"ns-a", the probe for "veth1" errors independently of the readers and the
Phase-2 loop over ["veth1"] degenerates to the empty loop. -/
theorem switch_failure_skips_interface_witness :
    (dumpInterfaceData { envSwitchFail with
        getLinkByName := fun _ _ => Except.ok none,
        getAddressList := fun _ _ => Except.ok [] } "veth1" (some nsACfg.Name) none).1
      = Except.error ("failed to switch to namespace " ++ nsACfg.Name ++ ": "
        ++ "no such namespace") ∧
    dumpRegistryNsLoop envSwitchFail ["veth1"] none []
      = dumpRegistryNsLoop envSwitchFail [] none [] := by
  obtain ⟨hA, hB⟩ := switch_failure_skips_interface envSwitchFail "veth1" [] none []
    vethCfg nsACfg "no such namespace" rfl rfl rfl
  exact ⟨hA (fun _ _ => Except.ok none) (fun _ _ => Except.ok []), hB⟩

/-- C8: the statistics dump never returns a non-nil error; an empty
Registry yields the empty sequence with a nil error; a Registry lookup
miss, and a failing probe, each make the loop skip that one interface
and continue. -/
theorem dumpInterfaceStatistics_never_errors (env : Env) (s0 : NsRef) :
    (DumpInterfaceStatistics env s0).2 = none ∧
      (env.listNames = [] → DumpInterfaceStatistics env s0 = ([], none)) ∧
      (∀ n rest s ifs, env.lookupIdx n = none →
        dumpStatisticsLoop env (n :: rest) s ifs = dumpStatisticsLoop env rest s ifs) ∧
      (∀ n rest s ifs data e, env.lookupIdx n = some ⟨some data⟩ →
        probeResult env n (ifNsToGeneric data.Namespace) = Except.error e →
        dumpStatisticsLoop env (n :: rest) s ifs = dumpStatisticsLoop env rest s ifs) := by
  refine ⟨rfl, ?_, ?_, ?_⟩
  · intro h
    unfold DumpInterfaceStatistics
    rw [h]
    rfl
  · intro n rest s ifs h
    simp only [dumpStatisticsLoop, h]
  · intro n rest s ifs data e hl he
    have hp := dumpInterfaceData_eq_probe env n (ifNsToGeneric data.Namespace) s
    rw [he] at hp
    simp only [dumpStatisticsLoop, hl, hp]

/-- Witness for C8: the concrete empty-Registry environment produces the
empty statistics sequence with a nil error. -/
theorem dumpInterfaceStatistics_never_errors_witness :
    (DumpInterfaceStatistics envEmptyReg none).2 = none ∧
      DumpInterfaceStatistics envEmptyReg none = ([], none) := by
  obtain ⟨hz, he, _, _⟩ := dumpInterfaceStatistics_never_errors envEmptyReg none
  exact ⟨hz, he rfl⟩

/-- Names of a listing starting with a nil link. -/
theorem namesOfLinks_cons_none (rest : List (Option LinkAttrs)) :
    namesOfLinks (none :: rest) = namesOfLinks rest := rfl

/-- Names of a listing starting with a usable link. -/
theorem namesOfLinks_cons_some (attrs : LinkAttrs) (rest : List (Option LinkAttrs)) :
    namesOfLinks (some attrs :: rest) = attrs.Name :: namesOfLinks rest := rfl

/-- Inventory names distribute over appending. -/
theorem detailsNames_append (l1 l2 : List LinuxInterfaceDetails) :
    detailsNames (l1 ++ l2) = detailsNames l1 ++ detailsNames l2 :=
  List.filterMap_append _ _ _

/-- Filtering past a rejected head. -/
theorem filter_cons_false {p : String → Bool} {n : String} (h : p n = false)
    (l : List String) : (n :: l).filter p = l.filter p := by
  simp [List.filter_cons, h]

/-- Filtering keeps an accepted head. -/
theorem filter_cons_true {p : String → Bool} {n : String} (h : p n = true)
    (l : List String) : (n :: l).filter p = n :: l.filter p := by
  simp [List.filter_cons, h]

/-- Every element the Phase-1 loop adds to the accumulator has both
blocks populated (it came out of a successful merge). -/
theorem dumpDefaultNsLoop_populated (env : Env) :
    ∀ links s ifs res sf,
      dumpDefaultNsLoop env links s ifs = some (res, sf) →
      (∀ d ∈ ifs, d.Interface.isSome ∧ d.Meta.isSome) →
      ∀ d ∈ res, d.Interface.isSome ∧ d.Meta.isSome := by
  intro links
  induction links with
  | nil =>
    intro s ifs res sf h hacc
    simp only [dumpDefaultNsLoop, Option.some.injEq, Prod.mk.injEq] at h
    obtain ⟨h1, _⟩ := h
    subst h1
    exact hacc
  | cons dNsLink rest ih =>
    intro s ifs res sf h hacc
    cases dNsLink with
    | none =>
      simp only [dumpDefaultNsLoop] at h
      exact ih _ _ _ _ h hacc
    | some attrs =>
      simp only [dumpDefaultNsLoop] at h
      rw [dumpInterfaceData_eq_probe] at h
      cases hp : probeResult env attrs.Name none with
      | error e =>
        simp only [hp] at h
        exact ih _ _ _ _ h hacc
      | ok pr =>
        obtain ⟨link, linkAddresses⟩ := pr
        simp only [hp] at h
        cases hl : env.lookupIdx attrs.Name <;> simp only [hl] at h <;>
        cases link with
        | none =>
          rw [transformAndStore_none] at h
          exact Option.noConfusion h
        | some la =>
          rw [transformAndStore_eq] at h
          refine ih _ _ _ _ h ?_
          intro d hd
          rcases List.mem_append.mp hd with hd | hd
          · exact hacc d hd
          · rw [List.mem_singleton] at hd
            subst hd
            exact ⟨rfl, rfl⟩

/-- Every element the Phase-2 loop adds to the accumulator has both
blocks populated. -/
theorem dumpRegistryNsLoop_populated (env : Env) :
    ∀ names s ifs res sf,
      dumpRegistryNsLoop env names s ifs = some (res, sf) →
      (∀ d ∈ ifs, d.Interface.isSome ∧ d.Meta.isSome) →
      ∀ d ∈ res, d.Interface.isSome ∧ d.Meta.isSome := by
  intro names
  induction names with
  | nil =>
    intro s ifs res sf h hacc
    simp only [dumpRegistryNsLoop, Option.some.injEq, Prod.mk.injEq] at h
    obtain ⟨h1, _⟩ := h
    subst h1
    exact hacc
  | cons n rest ih =>
    intro s ifs res sf h hacc
    simp only [dumpRegistryNsLoop] at h
    cases hl : env.lookupIdx n with
    | none =>
      simp only [hl] at h
      exact ih _ _ _ _ h hacc
    | some meta =>
      simp only [hl] at h
      cases hd : meta.Data with
      | none =>
        simp only [hd] at h
        exact ih _ _ _ _ h hacc
      | some data =>
        simp only [hd] at h
        cases hn : data.Namespace with
        | none =>
          simp only [hn] at h
          exact ih _ _ _ _ h hacc
        | some nsCfg =>
          simp only [hn] at h
          rw [dumpInterfaceData_eq_probe] at h
          cases hp : probeResult env n (ifNsToGeneric (some nsCfg)) with
          | error e =>
            simp only [hp] at h
            exact ih _ _ _ _ h hacc
          | ok pr =>
            obtain ⟨link, linkAddresses⟩ := pr
            simp only [hp] at h
            cases link with
            | none =>
              dsimp only at h
              exact ih _ _ _ _ h hacc
            | some la =>
              dsimp only at h
              rw [transformAndStore_eq] at h
              refine ih _ _ _ _ h ?_
              intro d hd2
              rcases List.mem_append.mp hd2 with hd2 | hd2
              · exact hacc d hd2
              · rw [List.mem_singleton] at hd2
                subst hd2
                exact ⟨rfl, rfl⟩

/-- C10: every element of the sequence returned by a dump that returns
has both a non-nil Configuration block and a non-nil Metadata block. -/
theorem dumpInterfaces_both_blocks (env : Env) (s0 : NsRef)
    (res : List LinuxInterfaceDetails) (err : Option String)
    (h : DumpInterfaces env s0 = some (res, err)) :
    ∀ d ∈ res, d.Interface.isSome ∧ d.Meta.isSome := by
  unfold DumpInterfaces at h
  cases hg : env.getLinkList with
  | error e =>
    simp only [hg, Option.some.injEq, Prod.mk.injEq] at h
    obtain ⟨h1, _⟩ := h
    subst h1
    intro d hd
    cases hd
  | ok dNsLinks =>
    simp only [hg] at h
    cases hz : dumpDefaultNsLoop env dNsLinks s0 [] with
    | none => rw [hz] at h; exact Option.noConfusion h
    | some p1 =>
      obtain ⟨ifs1, s1⟩ := p1
      simp only [hz] at h
      cases hw : dumpRegistryNsLoop env env.listNames s1 ifs1 with
      | none => rw [hw] at h; exact Option.noConfusion h
      | some p2 =>
        obtain ⟨ifs2, s2⟩ := p2
        simp only [hw, Option.some.injEq, Prod.mk.injEq] at h
        obtain ⟨h1, _⟩ := h
        subst h1
        refine dumpRegistryNsLoop_populated env env.listNames s1 ifs1 ifs2 s2 hw ?_
        refine dumpDefaultNsLoop_populated env dNsLinks s0 [] ifs1 s1 hz ?_
        intro d hd
        cases hd

/-- Witness for C10: the first element of the concrete scan's inventory
has both blocks populated. -/
theorem dumpInterfaces_both_blocks_witness :
    (resScan.getD 0 {}).Interface.isSome ∧ (resScan.getD 0 {}).Meta.isSome :=
  dumpInterfaces_both_blocks envScan none resScan none rfl (resScan.getD 0 {}) (by decide)

/-- Counterexample to C6 as stated: in the concrete scan the link "lo"
is absent from the Registry, yet its inventory element carries a
populated Configuration (the freshly synthesized one holding the
kernel-read addresses), not an absent one. -/
theorem dump_missing_registry_entry_has_configuration :
    envScan.lookupIdx "lo" = none ∧
      (resScan.getD 0 {}).Meta.map LinuxInterfaceMeta.Name = some "lo" ∧
      (resScan.getD 0 {}).Interface = some { IpAddresses := ["10.0.0.1/24"] } := by
  refine ⟨rfl, rfl, rfl⟩

/-- Under a name-coherent resolver, a successful probe returns a link
carrying the queried name. -/
theorem probeResult_ok_name (env : Env) (hc : cohGetLinkByName env)
    (ifName : String) (ns : NsRef) (la : LinkAttrs) (addrs : List Addr)
    (h : probeResult env ifName ns = Except.ok (some la, addrs)) :
    la.Name = ifName := by
  unfold probeResult at h
  cases he : env.switchErr ns <;> simp only [he] at h
  · cases hg : env.getLinkByName ns ifName <;> simp only [hg] at h
    · exact Except.noConfusion h
    · cases hga : env.getAddressList ns ifName <;> simp only [hga] at h
      · exact Except.noConfusion h
      · injection h with h
        injection h with h1 h2
        exact hc ns ifName la (by rw [hg, h1])
  · exact Except.noConfusion h

/-- Names added by the Phase-1 loop form a sub-sequence of the names in
the bulk listing (under a name-coherent resolver). -/
theorem dumpDefaultNsLoop_names (env : Env) (hc : cohGetLinkByName env) :
    ∀ links s ifs res sf,
      dumpDefaultNsLoop env links s ifs = some (res, sf) →
      ∃ tl, detailsNames res = detailsNames ifs ++ tl ∧
        tl.Sublist (namesOfLinks links) := by
  intro links
  induction links with
  | nil =>
    intro s ifs res sf h
    simp only [dumpDefaultNsLoop, Option.some.injEq, Prod.mk.injEq] at h
    obtain ⟨h1, _⟩ := h
    subst h1
    exact ⟨[], by simp, List.nil_sublist _⟩
  | cons dNsLink rest ih =>
    intro s ifs res sf h
    cases dNsLink with
    | none =>
      simp only [dumpDefaultNsLoop] at h
      obtain ⟨tl, h1, h2⟩ := ih _ _ _ _ h
      exact ⟨tl, h1, by rw [namesOfLinks_cons_none]; exact h2⟩
    | some attrs =>
      simp only [dumpDefaultNsLoop] at h
      rw [dumpInterfaceData_eq_probe] at h
      cases hp : probeResult env attrs.Name none with
      | error e =>
        simp only [hp] at h
        obtain ⟨tl, h1, h2⟩ := ih _ _ _ _ h
        exact ⟨tl, h1, by rw [namesOfLinks_cons_some]; exact h2.cons _⟩
      | ok pr =>
        obtain ⟨link, linkAddresses⟩ := pr
        simp only [hp] at h
        have hname : ∀ la2, link = some la2 → la2.Name = attrs.Name := by
          intro la2 hla
          subst hla
          exact probeResult_ok_name env hc attrs.Name none la2 linkAddresses hp
        cases hl : env.lookupIdx attrs.Name <;> simp only [hl] at h <;>
        cases link with
        | none =>
          rw [transformAndStore_none] at h
          exact Option.noConfusion h
        | some la =>
          rw [transformAndStore_eq] at h
          obtain ⟨tl, h1, h2⟩ := ih _ _ _ _ h
          refine ⟨attrs.Name :: tl, ?_, ?_⟩
          · rw [h1, detailsNames_append, List.append_assoc]
            simp [detailsNames, metaOfAttrs, hname la rfl]
          · rw [namesOfLinks_cons_some]
            exact h2.cons₂ _

/-- Names added by the Phase-2 loop form a sub-sequence of the Registry
names that are recorded under a non-default namespace (under a
name-coherent resolver). -/
theorem dumpRegistryNsLoop_names (env : Env) (hc : cohGetLinkByName env) :
    ∀ names s ifs res sf,
      dumpRegistryNsLoop env names s ifs = some (res, sf) →
      ∃ tl, detailsNames res = detailsNames ifs ++ tl ∧
        tl.Sublist (names.filter (fun n => regNonDefault env n)) := by
  intro names
  induction names with
  | nil =>
    intro s ifs res sf h
    simp only [dumpRegistryNsLoop, Option.some.injEq, Prod.mk.injEq] at h
    obtain ⟨h1, _⟩ := h
    subst h1
    exact ⟨[], by simp, List.nil_sublist _⟩
  | cons n rest ih =>
    intro s ifs res sf h
    simp only [dumpRegistryNsLoop] at h
    cases hl : env.lookupIdx n with
    | none =>
      simp only [hl] at h
      obtain ⟨tl, h1, h2⟩ := ih _ _ _ _ h
      have hf : regNonDefault env n = false := by simp [regNonDefault, hl]
      exact ⟨tl, h1, by rw [filter_cons_false hf]; exact h2⟩
    | some meta =>
      simp only [hl] at h
      cases hd : meta.Data with
      | none =>
        simp only [hd] at h
        obtain ⟨tl, h1, h2⟩ := ih _ _ _ _ h
        have hf : regNonDefault env n = false := by simp [regNonDefault, hl, hd]
        exact ⟨tl, h1, by rw [filter_cons_false hf]; exact h2⟩
      | some data =>
        simp only [hd] at h
        cases hn : data.Namespace with
        | none =>
          simp only [hn] at h
          obtain ⟨tl, h1, h2⟩ := ih _ _ _ _ h
          have hf : regNonDefault env n = false := by simp [regNonDefault, hl, hd, hn]
          exact ⟨tl, h1, by rw [filter_cons_false hf]; exact h2⟩
        | some nsCfg =>
          simp only [hn] at h
          rw [dumpInterfaceData_eq_probe] at h
          have ht : regNonDefault env n = true := by simp [regNonDefault, hl, hd, hn]
          cases hp : probeResult env n (ifNsToGeneric (some nsCfg)) with
          | error e =>
            simp only [hp] at h
            obtain ⟨tl, h1, h2⟩ := ih _ _ _ _ h
            exact ⟨tl, h1, by rw [filter_cons_true ht]; exact h2.cons _⟩
          | ok pr =>
            obtain ⟨link, linkAddresses⟩ := pr
            simp only [hp] at h
            cases link with
            | none =>
              dsimp only at h
              obtain ⟨tl, h1, h2⟩ := ih _ _ _ _ h
              exact ⟨tl, h1, by rw [filter_cons_true ht]; exact h2.cons _⟩
            | some la =>
              dsimp only at h
              rw [transformAndStore_eq] at h
              obtain ⟨tl, h1, h2⟩ := ih _ _ _ _ h
              have hname : la.Name = n :=
                probeResult_ok_name env hc n (ifNsToGeneric (some nsCfg)) la linkAddresses hp
              refine ⟨n :: tl, ?_, ?_⟩
              · rw [h1, detailsNames_append, List.append_assoc]
                simp [detailsNames, metaOfAttrs, hname]
              · rw [filter_cons_true ht]
                exact h2.cons₂ _

/-- C1 (amended): each interface name appears at most once in the
inventory, provided that the bulk listing's names and the Registry's
name list are duplicate-free, the resolver is name-coherent, and no name
visible in the default-namespace listing is recorded in the Registry
under a non-default namespace.  (The Phase-2 skip deduplicates only
Registry entries whose stored namespace is the default one.) -/
theorem dumpInterfaces_no_duplicate_names (env : Env) (s0 : NsRef)
    (links : List (Option LinkAttrs)) (res : List LinuxInterfaceDetails)
    (err : Option String)
    (hc : cohGetLinkByName env)
    (hg : env.getLinkList = Except.ok links)
    (h1 : (namesOfLinks links).Nodup)
    (h2 : env.listNames.Nodup)
    (h3 : ∀ n ∈ namesOfLinks links, regNonDefault env n = false)
    (h : DumpInterfaces env s0 = some (res, err)) :
    (detailsNames res).Nodup := by
  unfold DumpInterfaces at h
  simp only [hg] at h
  cases hz : dumpDefaultNsLoop env links s0 [] with
  | none => rw [hz] at h; exact Option.noConfusion h
  | some p1 =>
    obtain ⟨ifs1, s1⟩ := p1
    simp only [hz] at h
    cases hw : dumpRegistryNsLoop env env.listNames s1 ifs1 with
    | none => rw [hw] at h; exact Option.noConfusion h
    | some p2 =>
      obtain ⟨ifs2, s2⟩ := p2
      simp only [hw, Option.some.injEq, Prod.mk.injEq] at h
      obtain ⟨hres, _⟩ := h
      subst hres
      obtain ⟨tl1, e1, s1sub⟩ := dumpDefaultNsLoop_names env hc links s0 [] ifs1 s1 hz
      obtain ⟨tl2, e2, s2sub⟩ := dumpRegistryNsLoop_names env hc env.listNames s1 ifs1 ifs2 s2 hw
      have n1 : tl1.Nodup := List.Nodup.sublist s1sub h1
      have n2 : tl2.Nodup := List.Nodup.sublist s2sub (h2.filter _)
      have disj : tl1.Disjoint tl2 := by
        intro x hx1 hx2
        have hx1m : x ∈ namesOfLinks links := s1sub.subset hx1
        have hx2m : x ∈ env.listNames.filter (fun n => regNonDefault env n) := s2sub.subset hx2
        have h4 := (List.mem_filter.mp hx2m).2
        rw [h3 x hx1m] at h4
        exact Bool.noConfusion h4
      rw [e2, e1]
      simpa [detailsNames] using List.Nodup.append n1 n2 disj

/-- Counterexample to C1 as stated: with "eth0" both visible in the
default namespace and Registry-recorded under the non-default "ns-a"
(and reachable there), the inventory carries the name "eth0" twice. -/
theorem dumpInterfaces_duplicate_name :
    (DumpInterfaces envDup none).map (fun r => (detailsNames r.1).count "eth0")
      = some 2 := by
  rfl

/-- Witness for C1 (amended): the concrete scan (default link "lo",
Registry entry "veth1" under "ns-a") yields an inventory with
duplicate-free names. -/
theorem dumpInterfaces_no_duplicate_names_witness :
    (detailsNames resScan).Nodup :=
  dumpInterfaces_no_duplicate_names envScan none [some loAttrs] resScan none
    (by
      intro s n l hx
      simp only [envScan] at hx
      injection hx with hx
      injection hx with hx
      subst hx
      rfl)
    rfl (by decide) (by decide) (by decide) rfl

end VppDumpLink
